import Mathlib

/-!
Shallow embedding of the expense-tracker core (ExpenseScreen.js and
components/ExpensesChart.js): the expense data model, the create/update
repository operations over an abstract SQLite table, the week/month window
classifier, and the filter/aggregation engine.

Conventions of the embedding:
- A JavaScript instant is modelled as minutes since the Unix epoch (Int).
  The ambient time zone is an explicit offset, in minutes to add to UTC to
  obtain local time.
- A stored date string "YYYY-MM-DD" is modelled as its `CivilDate` triple
  (the string form is in bijection with the triple for the years in play).
- JS numbers that can be NaN or infinite (results of parseFloat) are
  modelled by `JsNum`; numbers known finite are modelled as rationals.
-/

/-- A calendar date, the model of a stored "YYYY-MM-DD" string. -/
structure CivilDate where
  year : Int
  month : Int
  day : Int
deriving DecidableEq, Repr

/-- Days since 1970-01-01 of a civil date (standard civil-from-days
inverse, written with Euclidean division, which floors here because every
divisor is positive). Used to model what the JS Date object stores. -/
def daysFromCivil (y m d : Int) : Int :=
  let yy := if m ≤ 2 then y - 1 else y
  let era := yy / 400
  let yoe := yy - era * 400
  let mp := (m + 9) % 12
  let doy := (153 * mp + 2) / 5 + d - 1
  let doe := yoe * 365 + yoe / 4 - yoe / 100 + doy
  era * 146097 + doe - 719468

/-- Civil date of a day number (days since 1970-01-01); models how a JS
Date renders its stored instant as calendar components. -/
def civilFromDays (z : Int) : CivilDate :=
  let zz := z + 719468
  let era := zz / 146097
  let doe := zz - era * 146097
  let yoe := (doe - doe / 1460 + doe / 36524 - doe / 146096) / 365
  let y := yoe + era * 400
  let doy := doe - (365 * yoe + yoe / 4 - yoe / 100)
  let mp := (5 * doy + 2) / 153
  let d := doy - (153 * mp + 2) / 5 + 1
  let m := if mp < 10 then mp + 3 else mp - 9
  ⟨if m ≤ 2 then y + 1 else y, m, d⟩

/-- Epoch minutes of the instant produced by `new Date("YYYY-MM-DD")`:
the ES spec parses a date-only string as midnight UTC. -/
def parseDateMin (d : CivilDate) : Int :=
  daysFromCivil d.year d.month d.day * 1440

/-- Local day number of an instant `t` (epoch minutes) in a zone `off`
minutes east of UTC: what getFullYear/getMonth/getDate/getDay read. -/
def localDays (t off : Int) : Int :=
  (t + off) / 1440

/-- Local civil date of an instant, as read by the local component getters
of a JS Date. -/
def localCivil (t off : Int) : CivilDate :=
  civilFromDays (localDays t off)

/-! ## The parsed-amount model (parseFloat results) -/

/-- Result of parseFloat on the amount field: NaN for unparsable input,
and the two infinities are producible (for example parseFloat applied to
the string Infinity yields positive infinity). -/
inductive JsNum where
  | nan
  | posInf
  | negInf
  | finite (q : ℚ)
deriving DecidableEq, Repr

/-- JS isNaN on a parsed number. -/
def JsNum.isNaN : JsNum → Bool
  | .nan => true
  | _ => false

/-- JS comparison amountNumber <= 0 (false on NaN and positive infinity,
true on negative infinity). -/
def JsNum.leZero : JsNum → Bool
  | .nan => false
  | .posInf => false
  | .negInf => true
  | .finite q => q ≤ 0

/-- True exactly for a finite parsed number (used to state the spec's
finiteness condition; the code never tests this). -/
def JsNum.isFinite : JsNum → Bool
  | .finite _ => true
  | _ => false

/-- The trim() of JS strings: drop leading and trailing whitespace
characters (modelled over the character list so that it evaluates in the
kernel; String.trim of the library is extensionally the same on the
whitespace in play here). -/
def jsTrim (s : String) : String :=
  ⟨((s.data.dropWhile Char.isWhitespace).reverse.dropWhile
      Char.isWhitespace).reverse⟩

/-! ## Repository model: the expenses table and addExpense -/

/-- One row of the expenses table as the repository creates it. -/
structure Row where
  id : Int
  amount : JsNum
  category : String
  note : String
  date : CivilDate
deriving DecidableEq, Repr

/-- The durable store together with the auto-increment counter. `rows` is
kept in the order loadExpenses returns (id descending), so the list after
a mutation-plus-reload is directly the in-memory record set. -/
structure CreateState where
  rows : List Row
  nextId : Int
deriving DecidableEq, Repr

/-- A storage operation issued by the repository (the INSERT of
addExpense); recorded so that a validation failure is provably free of
storage traffic. -/
inductive StorageOp where
  | insert (amount : JsNum) (category : String) (n : String) (date : CivilDate)
deriving DecidableEq, Repr

/-- The validation failure signalled when create aborts. -/
inductive ValidationError where
  | invalidAmount
  | emptyCategory
deriving DecidableEq, Repr

/-- addExpense (ExpenseScreen.js lines 78-103). `amountNumber` is the
parseFloat result of the amount field; the guard is
isNaN(amountNumber) or amountNumber <= 0, then the trimmed category must
be non-empty. On success the date column receives
toISOString().slice(0, 10) of the current instant, which is the UTC
calendar date, and after the reload the new row (largest id) is first.
Returns the signalled error (if any), the state after the operation, and
the list of storage operations issued. -/
def addExpense (amountNumber : JsNum) (category : String) (n : String)
    (now : Int) (s : CreateState) :
    Option ValidationError × CreateState × List StorageOp :=
  if amountNumber.isNaN || amountNumber.leZero then
    (some .invalidAmount, s, [])
  else
    let trimmedCategory := jsTrim category
    let trimmedNote := jsTrim n
    if trimmedCategory = "" then
      (some .emptyCategory, s, [])
    else
      let today := civilFromDays (now / 1440)
      (none,
       ⟨⟨s.nextId, amountNumber, trimmedCategory, trimmedNote, today⟩ :: s.rows,
        s.nextId + 1⟩,
       [.insert amountNumber trimmedCategory trimmedNote today])

/-! ## Window classifier (ExpenseScreen.js lines 111-134) -/

/-- getWeekStart (lines 125-129), carried to day numbers: with
day = date.getDay() (0 = Sunday), the code builds
new Date(year, month, dayOfMonth - day + (day = 0 ? -6 : 1)), and the
Date constructor normalizes an out-of-range day of month, so the result
is exactly this day-number arithmetic on the local day number. -/
def getWeekStart (dn : Int) : Int :=
  let day := (dn + 4) % 7
  dn - day + (if day = 0 then -6 else 1)

/-- Week sameness on local day numbers: the toDateString comparison of
the two local-midnight Dates of getWeekStart, which agree exactly when
the day numbers agree. -/
def isSameWeekDays (a b : Int) : Bool :=
  getWeekStart a == getWeekStart b

/-- isSameWeek (lines 121-134): the stored date string is parsed by
new Date(dateStr) as midnight UTC, now is the current instant, and both
are viewed through the local-component getters of the zone `off`. -/
def isSameWeek (dateStr : CivilDate) (now off : Int) : Bool :=
  isSameWeekDays (localDays (parseDateMin dateStr) off) (localDays now off)

/-- isSameMonth (lines 112-119): same parsing as isSameWeek, then
getFullYear and getMonth of both sides are compared. -/
def isSameMonth (dateStr : CivilDate) (now off : Int) : Bool :=
  let d := localCivil (parseDateMin dateStr) off
  let nowC := localCivil now off
  d.year == nowC.year && d.month == nowC.month

/-- The spec's weekStart characterization: m is the Monday on or before n
(Monday has day-of-week 1 with the (dn + 4) % 7 convention, day 0 being
the Thursday 1970-01-01). -/
def IsWeekStartOf (m n : Int) : Prop :=
  (m + 4) % 7 = 1 ∧ m ≤ n ∧ n < m + 7

instance (m n : Int) : Decidable (IsWeekStartOf m n) := by
  unfold IsWeekStartOf; infer_instance

/-! ## Filter and aggregation engine -/

/-- An expense record as the aggregation engine sees it after a load:
amounts come from the REAL column and are modelled as rationals. -/
structure Expense where
  id : Int
  amount : ℚ
  category : String
  note : String
  date : CivilDate
deriving DecidableEq, Repr

/-- One step of the object-building pattern shared by totalsByCategory
and getChartData: if the key is absent it is appended with value 0 and
then incremented, otherwise its value is incremented in place (a JS
object keeps the insertion position of an existing key). The falsy test
on an existing 0 value only rewrites 0 to 0, so it is invisible here. -/
def bump : List (String × ℚ) → String → ℚ → List (String × ℚ)
  | [], c, a => [(c, a)]
  | (k, v) :: m, c, a =>
      if k = c then (k, v + a) :: m else (k, v) :: bump m c a

/-- totalsByCategory (lines 150-157) as a function of the record list it
folds over: per-category sums keyed by the raw stored category, in first
occurrence order. -/
def totalsByCategory (l : List Expense) : List (String × ℚ) :=
  l.foldl (fun m e => bump m e.category e.amount) []

/-- Number(expense.amount) followed by the JS or-with-0 fallback
(line 31): on an already numeric, non-NaN amount this is the identity,
written literally as the falsy test on 0. -/
def numOr0 (q : ℚ) : ℚ :=
  if q = 0 then 0 else q

/-- getChartData (lines 26-44): the same object-building fold, but the
key is expense.category or the literal Other when the category is falsy
(empty), and the amount passes through Number(...) with or-0; the result
is materialized as (Object.keys, Object.values). -/
def getChartData (l : List Expense) : List String × List ℚ :=
  let m := l.foldl
    (fun m e =>
      bump m (if e.category = "" then "Other" else e.category) (numOr0 e.amount))
    []
  (m.map Prod.fst, m.map Prod.snd)

/-- The relabelling the chart view applies to a record before summing:
an empty category becomes the literal Other (used to state the
refinement of getChartData by totalsByCategory). -/
def otherIfEmpty (e : Expense) : Expense :=
  if e.category = "" then { e with category := "Other" } else e

/-- totalSpending (lines 145-147): reduce with + over the amounts,
starting from 0, as a function of the record list it reduces. -/
def totalSpending (l : List Expense) : ℚ :=
  l.foldl (fun sum e => sum + e.amount) 0

/-- Sum of the values of a category-totals object (Object.values summed),
used to relate totalsByCategory to totalSpending. -/
def sumValues (m : List (String × ℚ)) : ℚ :=
  (m.map Prod.snd).sum

/-- filteredExpenses (lines 137-142) as a function of the record list,
the filter mode string, and the ambient instant and zone the window
classifier reads. -/
def filteredExpenses (l : List Expense) (filter : String) (now off : Int) :
    List Expense :=
  if filter = "ALL" then l
  else if filter = "WEEK" then l.filter (fun e => isSameWeek e.date now off)
  else if filter = "MONTH" then l.filter (fun e => isSameMonth e.date now off)
  else l

/-- The UPDATE ... WHERE id = ? of handleSaveEdit: every row whose id
matches has its four mutable columns overwritten; every other row is
untouched; no row is added or removed and the id column never changes,
so the id-descending reload returns this very list. -/
def sqlUpdate (rows : List Expense) (i : Int) (a : ℚ) (c nt : String)
    (dt : CivilDate) : List Expense :=
  rows.map fun r =>
    if r.id = i then { r with amount := a, category := c, note := nt, date := dt }
    else r

/-- handleSaveEdit (lines 160-180): a no-op without an expense being
edited, otherwise the UPDATE with the edited fields followed by the
reload. (The JS or-empty fallback on the note only replaces a null note;
notes are strings here, on which it is the identity.) -/
def handleSaveEdit (editingExpense : Option Expense) (rows : List Expense) :
    List Expense :=
  match editingExpense with
  | none => rows
  | some e => sqlUpdate rows e.id e.amount e.category e.note e.date

/-! ## Basic evaluations of the embedding -/

example : daysFromCivil 1970 1 1 = 0 := by decide
example : civilFromDays 0 = ⟨1970, 1, 1⟩ := by decide
example : (daysFromCivil 2024 6 3 + 4) % 7 = 1 := by decide
example : civilFromDays (daysFromCivil 2024 6 9) = ⟨2024, 6, 9⟩ := by decide
example : jsTrim "  hi " = "hi" := by decide
example : jsTrim "  " = "" := by decide
example : ((-5 : Int) / 2) = -3 := by decide
example : ((-5 : Int) % 3) = 1 := by decide

example :
    (addExpense (.finite 5) " Food " " x " (daysFromCivil 2024 6 3 * 1440 + 70)
      ⟨[], 1⟩).2.1.rows =
    [⟨1, .finite 5, "Food", "x", ⟨2024, 6, 3⟩⟩] := by decide
example : (addExpense .nan "Food" "" 0 ⟨[], 1⟩).1 = some .invalidAmount := by decide
example : (addExpense (.finite 5) "  " "" 0 ⟨[], 1⟩).1 = some .emptyCategory := by decide
example : (addExpense .posInf "Food" "" 0 ⟨[], 1⟩).1 = none := by decide

example :
    totalsByCategory
      [⟨1, 10, "Food", "", ⟨2024, 6, 3⟩⟩, ⟨2, 5, "Food", "", ⟨2024, 6, 3⟩⟩,
       ⟨3, 20, "Books", "", ⟨2024, 6, 3⟩⟩] = [("Food", 15), ("Books", 20)] := by
  norm_num +decide [totalsByCategory, bump]
example :
    totalSpending
      [⟨1, 10, "Food", "", ⟨2024, 6, 3⟩⟩, ⟨2, 5, "Food", "", ⟨2024, 6, 3⟩⟩,
       ⟨3, 20, "Books", "", ⟨2024, 6, 3⟩⟩] = 35 := by
  norm_num [totalSpending]
example :
    isSameWeek ⟨2024, 6, 3⟩ (parseDateMin ⟨2024, 6, 5⟩) 0 = true := by decide
example :
    isSameWeek ⟨2024, 6, 10⟩ (parseDateMin ⟨2024, 6, 5⟩) 0 = false := by decide
example :
    isSameMonth ⟨2024, 6, 1⟩ (parseDateMin ⟨2024, 6, 15⟩ + 1020) (-300) = false := by
  decide

/-! ## Helper lemmas -/

theorem getWeekStart_eq_of_weekStartOf {m n : Int} (h : IsWeekStartOf m n) :
    getWeekStart n = m := by
  obtain ⟨h1, h2, h3⟩ := h
  simp only [getWeekStart]
  split <;> omega

theorem numOr0_eq (q : ℚ) : numOr0 q = q := by
  unfold numOr0
  split <;> simp_all

theorem chart_foldl_congr :
    ∀ (l : List Expense) (m : List (String × ℚ)),
      (∀ e ∈ l, e.category ≠ "") →
      l.foldl
        (fun m e =>
          bump m (if e.category = "" then "Other" else e.category)
            (numOr0 e.amount)) m =
      l.foldl (fun m e => bump m e.category e.amount) m := by
  intro l
  induction l with
  | nil => intro m _; rfl
  | cons e l ih =>
    intro m h
    simp only [List.foldl_cons]
    rw [if_neg (h e (List.mem_cons_self e l)), numOr0_eq]
    exact ih _ fun x hx => h x (List.mem_cons_of_mem e hx)

theorem chart_foldl_relabel :
    ∀ (l : List Expense) (m : List (String × ℚ)),
      l.foldl
        (fun m e =>
          bump m (if e.category = "" then "Other" else e.category)
            (numOr0 e.amount)) m =
      (l.map otherIfEmpty).foldl (fun m e => bump m e.category e.amount) m := by
  intro l
  induction l with
  | nil => intro m; rfl
  | cons e l ih =>
    intro m
    have hstep :
        bump m (if e.category = "" then "Other" else e.category)
          (numOr0 e.amount) =
        bump m (otherIfEmpty e).category (otherIfEmpty e).amount := by
      by_cases h : e.category = "" <;> simp [otherIfEmpty, h, numOr0_eq]
    simp only [List.map_cons, List.foldl_cons, hstep]
    exact ih _

theorem sumValues_bump (m : List (String × ℚ)) (c : String) (a : ℚ) :
    sumValues (bump m c a) = sumValues m + a := by
  induction m with
  | nil => simp [bump, sumValues]
  | cons kv m ih =>
    obtain ⟨k, v⟩ := kv
    unfold bump
    split
    · simp only [sumValues, List.map_cons, List.sum_cons]
      ring
    · simp only [sumValues, List.map_cons, List.sum_cons] at ih ⊢
      rw [ih]
      ring

theorem mem_keys_bump (m : List (String × ℚ)) (c x : String) (a : ℚ) :
    x ∈ (bump m c a).map Prod.fst ↔ x ∈ m.map Prod.fst ∨ x = c := by
  induction m with
  | nil => simp [bump]
  | cons kv m ih =>
    obtain ⟨k, v⟩ := kv
    unfold bump
    split
    · rename_i h
      subst h
      simp only [List.map_cons, List.mem_cons]
      tauto
    · simp only [List.map_cons, List.mem_cons, ih]
      tauto

theorem foldl_add_amounts (l : List Expense) (s : ℚ) :
    l.foldl (fun sum e => sum + e.amount) s = s + (l.map Expense.amount).sum := by
  induction l generalizing s with
  | nil => simp
  | cons e l ih =>
    simp only [List.foldl_cons, List.map_cons, List.sum_cons, ih]
    ring

theorem sumValues_totals_foldl (l : List Expense) (m : List (String × ℚ)) :
    sumValues (l.foldl (fun m e => bump m e.category e.amount) m) =
      sumValues m + (l.map Expense.amount).sum := by
  induction l generalizing m with
  | nil => simp
  | cons e l ih =>
    simp only [List.foldl_cons, List.map_cons, List.sum_cons, ih, sumValues_bump]
    ring

theorem mem_keys_totals_foldl (l : List Expense) (m : List (String × ℚ))
    (x : String) :
    x ∈ (l.foldl (fun m e => bump m e.category e.amount) m).map Prod.fst ↔
      x ∈ m.map Prod.fst ∨ ∃ e ∈ l, e.category = x := by
  induction l generalizing m with
  | nil => simp
  | cons e l ih =>
    simp only [List.foldl_cons, ih, mem_keys_bump, List.mem_cons]
    constructor
    · rintro (⟨h | h⟩ | ⟨e', he', hx⟩)
      · exact Or.inl h
      · exact Or.inr ⟨e, Or.inl rfl, h.symm⟩
      · exact Or.inr ⟨e', Or.inr he', hx⟩
    · rintro (h | ⟨e', he' | he', hx⟩)
      · exact Or.inl (Or.inl h)
      · subst he'
        exact Or.inl (Or.inr hx.symm)
      · exact Or.inr ⟨e', he', hx⟩

/-! ## Claim theorems -/

/-- C6: on a record set in which every category is non-empty,
getChartData produces exactly the keys and values of totalsByCategory of
the same set, as two equal-length lists in the same first-occurrence
order; in general it produces the keys and values of totalsByCategory of
the set with every empty category relabelled to the literal Other, the
sums being computed identically. -/
theorem c6_chartSeries_refines_totalsByCategory :
    (∀ l : List Expense, (∀ e ∈ l, e.category ≠ "") →
       getChartData l =
         ((totalsByCategory l).map Prod.fst,
          (totalsByCategory l).map Prod.snd)) ∧
    (∀ l : List Expense,
       getChartData l =
         ((totalsByCategory (l.map otherIfEmpty)).map Prod.fst,
          (totalsByCategory (l.map otherIfEmpty)).map Prod.snd)) ∧
    (∀ l : List Expense,
       (getChartData l).1.length = (getChartData l).2.length) := by
  refine ⟨?_, ?_, ?_⟩
  · intro l h
    unfold getChartData totalsByCategory
    rw [chart_foldl_congr l [] h]
  · intro l
    unfold getChartData totalsByCategory
    rw [chart_foldl_relabel l []]
  · intro l
    simp [getChartData]

theorem c6_witness :
    (∀ e ∈ [(⟨1, 10, "Food", "", ⟨2024, 6, 3⟩⟩ : Expense)],
       Expense.category e ≠ "") ∧
    getChartData [⟨1, 10, "Food", "", ⟨2024, 6, 3⟩⟩] =
      ((totalsByCategory [⟨1, 10, "Food", "", ⟨2024, 6, 3⟩⟩]).map Prod.fst,
       (totalsByCategory [⟨1, 10, "Food", "", ⟨2024, 6, 3⟩⟩]).map Prod.snd) :=
  ⟨by decide,
   c6_chartSeries_refines_totalsByCategory.1
     [⟨1, 10, "Food", "", ⟨2024, 6, 3⟩⟩] (by decide)⟩

/-- C8: for every record set, the values of totalsByCategory sum to
totalSpending of the same set (0 for the empty set), and a category
occurs among its keys exactly when some record of the set bears that
exact category string. -/
theorem c8_totalsByCategory_sum_and_keys (l : List Expense) :
    sumValues (totalsByCategory l) = totalSpending l ∧
    (∀ x : String,
       x ∈ (totalsByCategory l).map Prod.fst ↔ ∃ e ∈ l, e.category = x) := by
  constructor
  · unfold totalsByCategory totalSpending
    rw [sumValues_totals_foldl, foldl_add_amounts]
    simp [sumValues]
  · intro x
    unfold totalsByCategory
    rw [mem_keys_totals_foldl]
    simp

/-- C2 (code bug): isSameWeek shares the UTC-parse slip of isSameMonth:
the stored date string parses as midnight UTC while getDay/getDate are
local, so in a zone 300 minutes west of UTC with now = 2024-06-05 12:00
local, the stored date 2024-06-03 is seen as local Sunday 2024-06-02
(week of May 27) and classifies false, and 2024-06-10 is seen as local
Sunday 2024-06-09 and classifies true - each the opposite of the
claimed Monday-based weekStart classification, which the same code
does produce at offset 0 (last three conjuncts). -/
theorem c2_isSameWeek_tz_shift_bug :
    isSameWeek ⟨2024, 6, 3⟩ (parseDateMin ⟨2024, 6, 5⟩ + 1020) (-300) = false ∧
    isSameWeek ⟨2024, 6, 10⟩ (parseDateMin ⟨2024, 6, 5⟩ + 1020) (-300) = true ∧
    localCivil (parseDateMin ⟨2024, 6, 3⟩) (-300) = ⟨2024, 6, 2⟩ ∧
    localCivil (parseDateMin ⟨2024, 6, 10⟩) (-300) = ⟨2024, 6, 9⟩ ∧
    localCivil (parseDateMin ⟨2024, 6, 5⟩ + 1020) (-300) = ⟨2024, 6, 5⟩ ∧
    isSameWeek ⟨2024, 6, 3⟩ (parseDateMin ⟨2024, 6, 5⟩) 0 = true ∧
    isSameWeek ⟨2024, 6, 9⟩ (parseDateMin ⟨2024, 6, 5⟩) 0 = true ∧
    isSameWeek ⟨2024, 6, 10⟩ (parseDateMin ⟨2024, 6, 5⟩) 0 = false :=
  ⟨by decide, by decide, by decide, by decide, by decide, by decide, by decide,
   by decide⟩

/-- C4 (code bug): isSameMonth parses the stored date string as midnight
UTC and then reads local calendar components, so classification is not
independent of the zone: in a zone 300 minutes west of UTC, the stored
date 2024-06-01 is seen as local 2024-05-31 and fails to classify into
June even though the reference instant lies in local June 2024. -/
theorem c4_isSameMonth_tz_shift_bug :
    isSameMonth ⟨2024, 6, 1⟩ (parseDateMin ⟨2024, 6, 15⟩ + 1020) (-300) = false ∧
    (localCivil (parseDateMin ⟨2024, 6, 15⟩ + 1020) (-300)).year = 2024 ∧
    (localCivil (parseDateMin ⟨2024, 6, 15⟩ + 1020) (-300)).month = 6 ∧
    localCivil (parseDateMin ⟨2024, 6, 1⟩) (-300) = ⟨2024, 5, 31⟩ :=
  ⟨by decide, by decide, by decide, by decide⟩

/-- C7: the ALL mode is the identity on the record set, and any mode
outside ALL, WEEK, MONTH falls through to the identity as well. -/
theorem c7_filter_all_and_unknown_identity :
    (∀ (l : List Expense) (now off : Int),
       filteredExpenses l "ALL" now off = l) ∧
    (∀ (l : List Expense) (mode : String) (now off : Int),
       mode ≠ "ALL" → mode ≠ "WEEK" → mode ≠ "MONTH" →
       filteredExpenses l mode now off = l) := by
  constructor
  · intro l now off
    simp [filteredExpenses]
  · intro l mode now off h1 h2 h3
    simp [filteredExpenses, h1, h2, h3]

theorem c7_witness :
    ("BOGUS" : String) ≠ "ALL" ∧ ("BOGUS" : String) ≠ "WEEK" ∧
    ("BOGUS" : String) ≠ "MONTH" ∧
    filteredExpenses [] "BOGUS" 0 0 = [] :=
  ⟨by decide, by decide, by decide,
   c7_filter_all_and_unknown_identity.2 [] "BOGUS" 0 0 (by decide) (by decide)
     (by decide)⟩

/-- C1 (counterexample): positive infinity is not a finite number, so the
claim as stated requires create to be a no-op on it, but the guard only
tests isNaN and <= 0: the operation succeeds, issues an INSERT and
changes the record set. -/
theorem c1_counterexample :
    JsNum.isFinite JsNum.posInf = false ∧
    (addExpense JsNum.posInf "Food" "" 0 ⟨[], 1⟩).1 = none ∧
    (addExpense JsNum.posInf "Food" "" 0 ⟨[], 1⟩).2.1 ≠ (⟨[], 1⟩ : CreateState) ∧
    (addExpense JsNum.posInf "Food" "" 0 ⟨[], 1⟩).2.2 ≠ [] :=
  ⟨by decide, by decide, by decide, by decide⟩

/-- C1 (amended): whenever the parsed amount is NaN or compares <= 0, or
the trimmed category is empty, create signals a validation error, leaves
the record set (and counter) unchanged and issues no storage operation. -/
theorem c1_create_rejects_nan_and_nonpositive
    (a : JsNum) (c nt : String) (now : Int) (s : CreateState)
    (h : a.isNaN = true ∨ a.leZero = true ∨ jsTrim c = "") :
    (addExpense a c nt now s).1.isSome = true ∧
    (addExpense a c nt now s).2.1 = s ∧
    (addExpense a c nt now s).2.2 = [] := by
  unfold addExpense
  rcases h with h | h | h
  · simp [h]
  · simp [h]
  · by_cases hb : (a.isNaN || a.leZero) = true
    · simp [hb]
    · simp only [Bool.not_eq_true] at hb
      simp [hb, h]

theorem c1_witness :
    (JsNum.isNaN .nan = true ∨ JsNum.leZero .nan = true ∨ jsTrim "Food" = "") ∧
    (addExpense .nan "Food" "" 0 ⟨[], 1⟩).1.isSome = true ∧
    (addExpense .nan "Food" "" 0 ⟨[], 1⟩).2.1 = (⟨[], 1⟩ : CreateState) ∧
    (addExpense .nan "Food" "" 0 ⟨[], 1⟩).2.2 = [] :=
  ⟨Or.inl rfl,
   c1_create_rejects_nan_and_nonpositive .nan "Food" "" 0 ⟨[], 1⟩ (Or.inl rfl)⟩

/-- C3 (counterexample): the date column stores
toISOString().slice(0, 10), the UTC calendar date. At the instant
2024-06-02 01:00 UTC in a zone 300 minutes west, the local calendar date
is 2024-06-01 but the stored date is 2024-06-02. -/
theorem c3_counterexample :
    ((addExpense (.finite 5) "Food" "" (daysFromCivil 2024 6 2 * 1440 + 60)
        ⟨[], 1⟩).2.1.rows.map Row.date) = [⟨2024, 6, 2⟩] ∧
    localCivil (daysFromCivil 2024 6 2 * 1440 + 60) (-300) = ⟨2024, 6, 1⟩ ∧
    (⟨2024, 6, 2⟩ : CivilDate) ≠ ⟨2024, 6, 1⟩ :=
  ⟨by decide, by decide, by decide⟩

/-- C3 (amended): every successful create stores, as the date of the new
record, the UTC calendar date of the current instant (the first ten
characters of toISOString), not the local calendar date. -/
theorem c3_create_stores_utc_date
    (q : ℚ) (c nt : String) (now : Int) (s : CreateState)
    (hq : 0 < q) (hc : jsTrim c ≠ "") :
    ((addExpense (.finite q) c nt now s).2.1.rows.map Row.date).head? =
      some (civilFromDays (now / 1440)) := by
  have h1 : JsNum.leZero (.finite q) = false := by
    simp only [JsNum.leZero, decide_eq_false_iff_not]
    exact not_le.mpr hq
  simp [addExpense, JsNum.isNaN, h1, hc]

theorem c3_witness :
    (0 : ℚ) < 5 ∧ jsTrim "Food" ≠ "" ∧
    ((addExpense (.finite 5) "Food" "" 0 ⟨[], 1⟩).2.1.rows.map Row.date).head? =
      some (civilFromDays (0 / 1440)) :=
  ⟨by norm_num, by decide,
   c3_create_stores_utc_date 5 "Food" "" 0 ⟨[], 1⟩ (by norm_num) (by decide)⟩

/-- C5 (counterexample): the note is trimmed before the INSERT, so a note
with surrounding whitespace does not round-trip exactly as given. -/
theorem c5_counterexample :
    ((addExpense (.finite 5) "Food" " hi " 0 ⟨[], 1⟩).2.1.rows.map Row.note) =
      ["hi"] ∧
    "hi" ≠ " hi " :=
  ⟨by decide, by decide⟩

/-- C5 (amended): for every valid input (finite amount > 0, category with
non-empty trim, arbitrary note), create followed by the reload yields the
old set plus one new record whose amount is the supplied value, whose
category is the trimmed category, whose note is the trimmed note (not the
note exactly as given), and whose id is the freshly assigned counter
value; no error is signalled. -/
theorem c5_create_roundtrip_trims_note
    (q : ℚ) (c nt : String) (now : Int) (s : CreateState)
    (hq : 0 < q) (hc : jsTrim c ≠ "") :
    (addExpense (.finite q) c nt now s).2.1.rows =
      ⟨s.nextId, .finite q, jsTrim c, jsTrim nt, civilFromDays (now / 1440)⟩ ::
        s.rows ∧
    (addExpense (.finite q) c nt now s).1 = none ∧
    (addExpense (.finite q) c nt now s).2.1.nextId = s.nextId + 1 := by
  have h1 : JsNum.leZero (.finite q) = false := by
    simp only [JsNum.leZero, decide_eq_false_iff_not]
    exact not_le.mpr hq
  simp [addExpense, JsNum.isNaN, h1, hc]

theorem c5_witness :
    (0 : ℚ) < 7 ∧ jsTrim " Books " ≠ "" ∧
    (addExpense (.finite 7) " Books " "ok" 0 ⟨[], 4⟩).2.1.rows =
      [⟨4, .finite 7, "Books", "ok", civilFromDays (0 / 1440)⟩] ∧
    (addExpense (.finite 7) " Books " "ok" 0 ⟨[], 4⟩).1 = none :=
  ⟨by norm_num, by decide,
   (c5_create_roundtrip_trims_note 7 " Books " "ok" 0 ⟨[], 4⟩ (by norm_num)
      (by decide)).1,
   (c5_create_roundtrip_trims_note 7 " Books " "ok" 0 ⟨[], 4⟩ (by norm_num)
      (by decide)).2.1⟩

/-- C9: saving an edit of a record whose id occurs in the set (ids being
unique, as the primary key guarantees) keeps the size and the id column
of the set; the record with the edited id carries, afterwards, exactly
the supplied amount, category, note and date with its id preserved, and
every record with a different id is unchanged. No validation constrains
the supplied values (they are arbitrary here, including non-positive
amounts and empty categories). -/
theorem c9_update_replaces_exactly_matching_id
    (rows : List Expense) (ex : Expense)
    (huniq : (rows.map Expense.id).Nodup)
    (hmem : ∃ r ∈ rows, r.id = ex.id) :
    (handleSaveEdit (some ex) rows).length = rows.length ∧
    (handleSaveEdit (some ex) rows).map Expense.id = rows.map Expense.id ∧
    (⟨ex.id, ex.amount, ex.category, ex.note, ex.date⟩ : Expense) ∈
      handleSaveEdit (some ex) rows ∧
    (∀ r ∈ rows, r.id ≠ ex.id → r ∈ handleSaveEdit (some ex) rows) ∧
    (∀ r ∈ handleSaveEdit (some ex) rows, r.id ≠ ex.id → r ∈ rows) ∧
    (∀ r ∈ handleSaveEdit (some ex) rows, r.id = ex.id →
       r = ⟨ex.id, ex.amount, ex.category, ex.note, ex.date⟩) ∧
    (handleSaveEdit (some ex) rows).countP (fun r => r.id == ex.id) = 1 := by
  have hcnt : rows.countP (fun r => r.id == ex.id) = 1 := by
    obtain ⟨r, hr, hid⟩ := hmem
    have h1 : (rows.map Expense.id).count ex.id = 1 :=
      List.count_eq_one_of_mem huniq (List.mem_map.mpr ⟨r, hr, hid⟩)
    rw [List.count, List.countP_map] at h1
    exact h1
  simp only [handleSaveEdit, sqlUpdate]
  refine ⟨List.length_map rows _, ?_, ?_, ?_, ?_, ?_, ?_⟩
  · rw [List.map_map]
    refine List.map_congr_left fun r _ => ?_
    by_cases h : r.id = ex.id <;> simp [h]
  · obtain ⟨r, hr, hid⟩ := hmem
    refine List.mem_map.mpr ⟨r, hr, ?_⟩
    show (if r.id = ex.id then
            ({ r with amount := ex.amount, category := ex.category,
                      note := ex.note, date := ex.date } : Expense)
          else r) = _
    rw [if_pos hid, hid]
  · intro r hr hne
    refine List.mem_map.mpr ⟨r, hr, ?_⟩
    exact if_neg hne
  · intro r hr hne
    obtain ⟨r0, hr0, heq⟩ := List.mem_map.mp hr
    by_cases h : r0.id = ex.id
    · rw [if_pos h] at heq
      exact absurd (by rw [← heq]; exact h) hne
    · rw [if_neg h] at heq
      exact heq ▸ hr0
  · intro r hr hid
    obtain ⟨r0, hr0, heq⟩ := List.mem_map.mp hr
    by_cases h : r0.id = ex.id
    · rw [if_pos h] at heq
      obtain ⟨ri, ra, rc, rn, rd⟩ := r0
      simp only at h
      subst h
      exact heq.symm
    · rw [if_neg h] at heq
      exact absurd (heq ▸ hid) h
  · rw [List.countP_map, ← hcnt]
    refine List.countP_congr fun r _ => ?_
    by_cases h : r.id = ex.id <;> simp [h]

theorem c9_witness :
    ((List.map Expense.id
        [(⟨1, 5, "Food", "x", ⟨2024, 6, 3⟩⟩ : Expense)]).Nodup ∧
     ∃ r ∈ [(⟨1, 5, "Food", "x", ⟨2024, 6, 3⟩⟩ : Expense)],
       r.id = (⟨1, -2, "", "y", ⟨2024, 6, 4⟩⟩ : Expense).id) ∧
    (handleSaveEdit (some ⟨1, -2, "", "y", ⟨2024, 6, 4⟩⟩)
        [⟨1, 5, "Food", "x", ⟨2024, 6, 3⟩⟩]).length =
      [(⟨1, 5, "Food", "x", ⟨2024, 6, 3⟩⟩ : Expense)].length ∧
    (⟨1, -2, "", "y", ⟨2024, 6, 4⟩⟩ : Expense) ∈
      handleSaveEdit (some ⟨1, -2, "", "y", ⟨2024, 6, 4⟩⟩)
        [⟨1, 5, "Food", "x", ⟨2024, 6, 3⟩⟩] :=
  ⟨⟨by decide, by decide⟩,
   (c9_update_replaces_exactly_matching_id
      [⟨1, 5, "Food", "x", ⟨2024, 6, 3⟩⟩] ⟨1, -2, "", "y", ⟨2024, 6, 4⟩⟩
      (by decide) (by decide)).1,
   (c9_update_replaces_exactly_matching_id
      [⟨1, 5, "Food", "x", ⟨2024, 6, 3⟩⟩] ⟨1, -2, "", "y", ⟨2024, 6, 4⟩⟩
      (by decide) (by decide)).2.2.1⟩

/-- C10: for every record set, mode, instant and zone, the filtered view
is a sublist of its input: every output record occurs in the input,
nothing is duplicated or modified, and the relative (load) order is
preserved. -/
theorem c10_filteredExpenses_sublist
    (l : List Expense) (mode : String) (now off : Int) :
    List.Sublist (filteredExpenses l mode now off) l := by
  unfold filteredExpenses
  repeat' split
  all_goals first
    | exact List.Sublist.refl l
    | exact List.filter_sublist l
